import Mathlib

/-!
Verification of the ProjectANNAX matrix-display server against its
natural-language specification.  The definitions below are a shallow
embedding of the Python sources:

* `annax/matrix_controller.py` — serial link protocol (`MatrixError`,
  `MatrixController.send_raw_datagram`, the pending-message queue with
  `commit`, `send_bitmap`, `set_parameter`);
* `annax/matrix_graphics.py` — bitmap alignment, packing and blending
  (`align_long_bitmap`, `long_bitmap_to_short_bitmap`,
  `blend_long_bitmaps`);
* `matrix_server.py` — the network request handler (`process_message`)
  and one per-panel iteration of the display control loop
  (`control_loop`).

Machine bytes are modelled as `Nat` (with explicit range conditions
where the Python code asserts them), time stamps and error codes as
`Int`, and fallible Python code (exceptions: `IndexError`, `KeyError`,
`TypeError`, assertion failures) as `Option`-returning functions where
`none` models an uncaught exception at that point.
-/

namespace Annax

/-! ## Link protocol: `annax/matrix_controller.py` -/

/-- `MatrixError.__init__` with `code = None`: Python `if response:` is a
truthiness test on the integer, so a response of `0` (the byte 0x00) falls
through to `self.code = -1`, while any non-zero response (including the
timeout marker `-1`) becomes `response - 0xE0`. -/
def matrixErrorCode (response : Int) : Int :=
  if response ≠ 0 then response - 0xE0 else -1

/-- One attempt of `send_raw_datagram`: the device either answers with a
single byte (`some b`, and `if response:` on the non-empty bytes object
succeeds even for the byte 0x00) or times out (`read` returns the empty
bytes object, and the code sets `response = -1`). -/
def attemptResponse (oracle : Nat → Option Nat) (i : Nat) : Int :=
  match oracle i with
  | some b => (b : Int)
  | none => -1

/-- The `while num_tries < self.max_tries and not success` loop of
`send_raw_datagram`, compiled with explicit fuel `maxTries - numTries`.
State: `(num_tries, last response if any attempt ran, success)`.  The
`response` component is `none` as long as no attempt ran (in Python the
local variable would be unbound). -/
def sendLoop (oracle : Nat → Option Nat) :
    Nat → Nat → Option Int → Bool → Nat × Option Int × Bool
  | 0, numTries, response, success => (numTries, response, success)
  | fuel + 1, numTries, response, success =>
    if success then (numTries, response, success)
    else
      let r := attemptResponse oracle numTries
      sendLoop oracle fuel (numTries + 1) (some r) (r == 255)

/-- Outcome of `send_raw_datagram`: returned `True`, raised
`MatrixError(code)`, or crashed (`max_tries = 0` leaves `response`
unbound in Python). -/
inductive SendResult where
  | ok : SendResult
  | err (code : Int) : SendResult
  | crash : SendResult
deriving DecidableEq, Repr

/-- `MatrixController.send_raw_datagram`, abstracting the device by a
response oracle giving the acknowledgement of each attempt. -/
def send_raw_datagram (oracle : Nat → Option Nat) (maxTries : Nat) : SendResult :=
  match sendLoop oracle maxTries 0 none false with
  | (_, _, true) => .ok
  | (_, some r, false) => .err (matrixErrorCode r)
  | (_, none, false) => .crash

/-- Number of loop iterations (`num_tries` on exit) of
`send_raw_datagram`. -/
def numAttempts (oracle : Nat → Option Nat) (maxTries : Nat) : Nat :=
  (sendLoop oracle maxTries 0 none false).1

/-- The queued state of a `MatrixController`: its retry budget and the
`pending_messages` list of encoded datagrams. -/
structure Controller where
  max_tries : Nat
  pending_messages : List (List Nat)
deriving DecidableEq, Repr

/-- `MatrixController.send_bitmap`: encode the action byte 0xA0, the
block count and the block bytes, and append to `pending_messages`; no
serial traffic.  `bytearray.append` raises for values above 255, hence
the range guard. -/
def send_bitmap (c : Controller) (bitmap : List (List Nat)) : Option Controller :=
  if bitmap.length ≤ 255 ∧ ∀ block ∈ bitmap, ∀ b ∈ block, b ≤ 255 then
    some { c with pending_messages :=
      c.pending_messages ++ [0xA0 :: bitmap.length :: bitmap.flatten] }
  else none

/-- `MatrixController.set_parameter`: assert the code/value ranges,
encode `[0xA0 + code, value]` and append to `pending_messages`; no
serial traffic. -/
def set_parameter (c : Controller) (code value : Nat) : Option Controller :=
  if 1 ≤ code ∧ code ≤ 15 ∧ value ≤ 255 then
    some { c with pending_messages :=
      c.pending_messages ++ [[0xA0 + code, value]] }
  else none

/-- Outcome of `MatrixController.commit`: returned a boolean, or let an
exception escape (a `MatrixError` from transmission, or `crash` for the
non-`MatrixError` exceptions: the `ValueError` from
`bytearray.append(len(self.pending_messages))` when more than 255
messages are queued, and the unbound-variable error that
`send_raw_datagram` hits with `max_tries = 0`). -/
inductive CommitResult where
  | ret (b : Bool) : CommitResult
  | err (code : Int) : CommitResult
  | crash : CommitResult
deriving DecidableEq, Repr

/-- `MatrixController.commit`: empty queue returns `False` with no
write; building the frame `0xFF :: count :: payload` raises `ValueError`
before anything is written when the message count does not fit the
count byte (`bytearray.append` rejects values above 255); otherwise the
frame is transmitted via `send_raw_datagram`, and the queue is cleared
only when transmission succeeded.  The third component records the
datagram handed to the serial layer, `none` when nothing was
written. -/
def commit (oracle : Nat → Option Nat) (c : Controller) :
    Controller × CommitResult × Option (List Nat) :=
  if c.pending_messages.isEmpty then (c, .ret false, none)
  else if 255 < c.pending_messages.length then (c, .crash, none)
  else
    let datagram := 0xFF :: c.pending_messages.length :: c.pending_messages.flatten
    match send_raw_datagram oracle c.max_tries with
    | .ok => ({ c with pending_messages := [] }, .ret true, some datagram)
    | .err e => (c, .err e, some datagram)
    | .crash => (c, .crash, some datagram)

/-! ## Bitmap codec: `annax/matrix_graphics.py` -/

/-- Python `l[:stop]` for an `Int` stop (negative stops count from the
end, the result is clamped to the list). -/
def pySliceStop {α : Type} (l : List α) (stop : Int) : List α :=
  if 0 ≤ stop then l.take stop.toNat
  else l.take (l.length - (-stop).toNat)

/-- Python `l[-n:]` (note `l[-0:]` is the whole list). -/
def pyTakeLast {α : Type} (l : List α) (n : Nat) : List α :=
  if n = 0 then l else l.drop (l.length - n)

/-- `MatrixGraphics.align_long_bitmap`.  The target width is
`self.controller.num_blocks * 8`.  `len(long_bitmap[0])` raises on an
empty grid (`none`).  Widths are read off the first row only; rows are
padded/cropped exactly as the Python slices do, including the buggy
centre-crop slice `row[int(target/2):][:-(int(target/2) - width % 2)]`. -/
def align_long_bitmap (num_blocks : Nat) (g : List (List Nat))
    (align : Option String) : Option (List (List Nat)) :=
  match g.head? with
  | none => none
  | some r0 =>
    let bitmap_width := r0.length
    let target_width := num_blocks * 8
    if bitmap_width = target_width then some g
    else if bitmap_width < target_width then
      match align with
      | some "left" => some (g.map (fun row =>
          row ++ List.replicate (target_width - bitmap_width) 0))
      | some "center" => some (g.map (fun row =>
          List.replicate ((target_width - bitmap_width) / 2) 0 ++ row ++
          List.replicate ((target_width - bitmap_width) / 2 + bitmap_width % 2) 0))
      | some "right" => some (g.map (fun row =>
          List.replicate (target_width - bitmap_width) 0 ++ row))
      | _ => some g
    else
      match align with
      | some "left" => some (g.map (fun row => row.take target_width))
      | some "center" => some (g.map (fun row =>
          pySliceStop (row.drop (target_width / 2))
            (-(((target_width / 2 : Nat) : Int) - ((bitmap_width % 2 : Nat) : Int)))))
      | some "right" => some (g.map (fun row => pyTakeLast row target_width))
      | _ => some g

/-- `int(chunk, 2)` on an eight-character chunk of the `"".join`-ed row:
most-significant bit first.  Faithful for pixel values 0/1 (anything
else makes the Python `int(chunk, 2)` raise or mis-chunk, and the
theorems below assume binary grids). -/
def bitsToByte (bits : List Nat) : Nat :=
  bits.foldl (fun acc b => 2 * acc + b) 0

/-- One row of `long_bitmap_to_short_bitmap`: chunk the row into groups
of eight pixels from the left and encode each group MSB-first; a short
final group is right-padded (`ljust`) with zeroes, i.e. padded in the
least significant bits. -/
def rowToBytes : List Nat → List Nat
  | [] => []
  | b0 :: b1 :: b2 :: b3 :: b4 :: b5 :: b6 :: b7 :: rest =>
      bitsToByte [b0, b1, b2, b3, b4, b5, b6, b7] :: rowToBytes rest
  | [b0] => [bitsToByte ([b0] ++ List.replicate 7 0)]
  | [b0, b1] => [bitsToByte ([b0, b1] ++ List.replicate 6 0)]
  | [b0, b1, b2] => [bitsToByte ([b0, b1, b2] ++ List.replicate 5 0)]
  | [b0, b1, b2, b3] => [bitsToByte ([b0, b1, b2, b3] ++ List.replicate 4 0)]
  | [b0, b1, b2, b3, b4] => [bitsToByte ([b0, b1, b2, b3, b4] ++ List.replicate 3 0)]
  | [b0, b1, b2, b3, b4, b5] =>
      [bitsToByte ([b0, b1, b2, b3, b4, b5] ++ List.replicate 2 0)]
  | [b0, b1, b2, b3, b4, b5, b6] =>
      [bitsToByte ([b0, b1, b2, b3, b4, b5, b6] ++ List.replicate 1 0)]

/-- `MatrixGraphics.long_bitmap_to_short_bitmap`: encode every row into
bytes, then transpose (`for x in range(len(temp_bitmap[0]))`, block `x`
collects byte `x` of every row).  An empty grid raises
(`temp_bitmap[0]`), and a ragged grid raises on the inner index
(`temp_bitmap[y][x]`). -/
def long_bitmap_to_short_bitmap (g : List (List Nat)) :
    Option (List (List Nat)) :=
  let temp := g.map rowToBytes
  match temp.head? with
  | none => none
  | some t0 =>
    (List.range t0.length).mapM (fun x => temp.mapM (fun row => row.get? x))

/-- Modelled from the spec: the inverse bit-expansion of one byte,
most-significant bit first (the byte-to-pixel direction is not in the
repository sources; the spec describes the packed form as "one byte per
8 pixels, MSB-first"). -/
def byteToBits (b : Nat) : List Nat :=
  [b / 128 % 2, b / 64 % 2, b / 32 % 2, b / 16 % 2,
   b / 8 % 2, b / 4 % 2, b / 2 % 2, b % 2]

/-- Modelled from the spec: `unpack`, the inverse
transposition/bit-expansion of `long_bitmap_to_short_bitmap` — row `y`
of the recovered grid concatenates the MSB-first bits of byte `y` of
every block, in block order. -/
def short_bitmap_to_long_bitmap (blocks : List (List Nat)) :
    List (List Nat) :=
  (List.range (blocks.headD []).length).map
    (fun y => (blocks.map (fun block => byteToBits (block.getD y 0))).flatten)

/-- `MatrixGraphics.blend_long_bitmaps`: the wider grid (first row
decides) is the base, cells inside the top grid's width are combined
with Python `or` (first truthy operand); raises on empty grids, on rows
shorter than the first row of the base, and when the top grid has fewer
rows than the base. -/
def blend_long_bitmaps (bitmap1 bitmap2 : List (List Nat)) :
    Option (List (List Nat)) := do
  let r1 ← bitmap1.head?
  let r2 ← bitmap2.head?
  let (base, top) :=
    if r1.length ≥ r2.length then (bitmap1, bitmap2) else (bitmap2, bitmap1)
  let bw := (base.headD []).length
  let tw := (top.headD []).length
  (List.range base.length).mapM (fun y => do
    let baseRow ← base.get? y
    (List.range bw).mapM (fun x => do
      let b ← baseRow.get? x
      if x < tw then do
        let topRow ← top.get? y
        let t ← topRow.get? x
        pure (if b ≠ 0 then b else t)
      else pure b))

/-! ## Lemmas about the retry loop -/

theorem sendLoop_of_success (oracle : Nat → Option Nat) :
    ∀ (fuel n : Nat) (r : Option Int),
      sendLoop oracle fuel n r true = (n, r, true)
  | 0, _, _ => rfl
  | _ + 1, _, _ => rfl

theorem sendLoop_all_fail (oracle : Nat → Option Nat) :
    ∀ (fuel n : Nat) (r : Option Int),
      (∀ i, n ≤ i → i < n + fuel → attemptResponse oracle i ≠ 255) →
      sendLoop oracle fuel n r false =
        (n + fuel,
         if fuel = 0 then r else some (attemptResponse oracle (n + fuel - 1)),
         false)
  | 0, n, r, _ => by simp [sendLoop]
  | fuel + 1, n, r, h => by
    have hne : attemptResponse oracle n ≠ 255 := h n le_rfl (by omega)
    have hbeq : (attemptResponse oracle n == 255) = false := by
      simpa using hne
    have ih := sendLoop_all_fail oracle fuel (n + 1) (some (attemptResponse oracle n))
      (fun i hi hi2 => h i (by omega) (by omega))
    simp only [sendLoop, if_neg Bool.false_ne_true, hbeq] at ih ⊢
    rw [ih]
    rcases Nat.eq_zero_or_pos fuel with hf | hf
    · subst hf; simp
    · have h1 : (fuel + 1 = 0) = False := by simp
      have h2 : (fuel = 0) = False := by simp [Nat.pos_iff_ne_zero.mp hf]
      simp only [h1, h2, if_false]
      rw [show n + 1 + fuel = n + (fuel + 1) by omega]

theorem sendLoop_first_success (oracle : Nat → Option Nat) :
    ∀ (fuel n : Nat) (r : Option Int) (k : Nat),
      n ≤ k → k < n + fuel →
      (∀ i, n ≤ i → i < k → attemptResponse oracle i ≠ 255) →
      attemptResponse oracle k = 255 →
      sendLoop oracle fuel n r false = (k + 1, some 255, true)
  | 0, n, r, k, hnk, hk, _, _ => by omega
  | fuel + 1, n, r, k, hnk, hk, hfail, hsucc => by
    rcases Nat.eq_or_lt_of_le hnk with heq | hlt
    · subst heq
      have hbeq : (attemptResponse oracle n == 255) = true := by
        simpa using hsucc
      simp only [sendLoop, if_neg Bool.false_ne_true, hbeq]
      rw [hsucc, sendLoop_of_success]
    · have hne : attemptResponse oracle n ≠ 255 := hfail n le_rfl hlt
      have hbeq : (attemptResponse oracle n == 255) = false := by
        simpa using hne
      simp only [sendLoop, if_neg Bool.false_ne_true, hbeq]
      exact sendLoop_first_success oracle fuel (n + 1)
        (some (attemptResponse oracle n)) k hlt (by omega)
        (fun i hi hi2 => hfail i (by omega) hi2) hsucc

/-! ## Claims C1, C9, C8 -/

/-- C1 (amended): if every attempt's acknowledgement differs from 0xFF
(or times out), `send_raw_datagram` performs exactly `max_tries`
attempts and raises a `MatrixError` whose code is `lastResponse - 0xE0`
when the last response is non-zero (a timeout counts as response `-1`),
and `-1` when the last acknowledgement byte is 0x00; it returns `True`
as soon as some attempt's acknowledgement equals 0xFF. -/
theorem C1_retry_policy (oracle : Nat → Option Nat) (maxTries : Nat)
    (h1 : 1 ≤ maxTries) :
    ((∀ i, i < maxTries → attemptResponse oracle i ≠ 255) →
      numAttempts oracle maxTries = maxTries ∧
      send_raw_datagram oracle maxTries =
        .err (if attemptResponse oracle (maxTries - 1) = 0 then -1
              else attemptResponse oracle (maxTries - 1) - 0xE0)) ∧
    (∀ k, k < maxTries →
      (∀ i, i < k → attemptResponse oracle i ≠ 255) →
      attemptResponse oracle k = 255 →
      numAttempts oracle maxTries = k + 1 ∧
      send_raw_datagram oracle maxTries = .ok) := by
  constructor
  · intro hfail
    have h := sendLoop_all_fail oracle maxTries 0 none
      (fun i _ hi => hfail i (by omega))
    have hfz : (maxTries = 0) = False := by simp; omega
    simp only [Nat.zero_add, hfz, if_false] at h
    constructor
    · simp [numAttempts, h]
    · simp only [send_raw_datagram, h, matrixErrorCode]
      by_cases hz : attemptResponse oracle (maxTries - 1) = 0 <;> simp [hz]
  · intro k hk hfail hsucc
    have h := sendLoop_first_success oracle maxTries 0 none k (by omega)
      (by omega) (fun i _ hi => hfail i hi) hsucc
    exact ⟨by simp [numAttempts, h], by simp [send_raw_datagram, h]⟩

/-- C1 witness: a device that always answers 0x02 fails after exactly 3
attempts (the default retry budget) with error code 2 - 0xE0 = -222. -/
theorem C1_retry_policy_witness :
    numAttempts (fun _ => some 2) 3 = 3 ∧
    send_raw_datagram (fun _ => some 2) 3 = .err (-222) := by
  have h := (C1_retry_policy (fun _ => some 2) 3 (by norm_num)).1
    (by intro i _; simp [attemptResponse])
  refine ⟨h.1, ?_⟩
  have h2 := h.2
  norm_num [attemptResponse] at h2
  exact h2

/-- C1 counterexample: when every acknowledgement is the byte 0x00, the
code raises `MatrixError` with code -1, not 0x00 - 0xE0 = -224, because
`MatrixError.__init__` tests the response with Python truthiness. -/
theorem C1_counterexample :
    numAttempts (fun _ => some 0) 3 = 3 ∧
    send_raw_datagram (fun _ => some 0) 3 = .err (-1) ∧
    SendResult.err (-1) ≠ SendResult.err ((0 : Int) - 0xE0) := by
  refine ⟨by decide, by decide, by decide⟩

/-- C9: after retry exhaustion, an acknowledgement byte 0x00 yields
error code -1 (unrecognized), not -224; a timeout (response -1) yields
-1 - 0xE0 = -225; and the `b - 0xE0` mapping is applied exactly to the
non-zero responses. -/
theorem C9_zero_byte_and_timeout_codes (maxTries : Nat) (h1 : 1 ≤ maxTries) :
    send_raw_datagram (fun _ => some 0) maxTries = .err (-1) ∧
    send_raw_datagram (fun _ => none) maxTries = .err (-225) ∧
    matrixErrorCode 0 = -1 ∧
    (∀ r : Int, r ≠ 0 → matrixErrorCode r = r - 0xE0) ∧
    matrixErrorCode (-1) = -1 - 0xE0 := by
  have hz := sendLoop_all_fail (fun _ => some 0) maxTries 0 none
    (by intro i _ _; simp [attemptResponse])
  have ht := sendLoop_all_fail (fun _ => none) maxTries 0 none
    (by intro i _ _; simp [attemptResponse])
  have hfz : (maxTries = 0) = False := by simp; omega
  simp only [Nat.zero_add, hfz, if_false] at hz ht
  refine ⟨?_, ?_, by simp [matrixErrorCode], ?_, by simp [matrixErrorCode]⟩
  · simp [send_raw_datagram, hz, attemptResponse, matrixErrorCode]
  · simp [send_raw_datagram, ht, attemptResponse, matrixErrorCode]
  · intro r hr; simp [matrixErrorCode, hr]

/-- C9 witness: the statement at the default retry budget 3. -/
theorem C9_zero_byte_and_timeout_codes_witness :
    send_raw_datagram (fun _ => some 0) 3 = .err (-1) ∧
    send_raw_datagram (fun _ => none) 3 = .err (-225) := by
  have h := C9_zero_byte_and_timeout_codes 3 (by norm_num)
  exact ⟨h.1, h.2.1⟩

/-- C8: `send_bitmap` and `set_parameter` only append an encoded
datagram to `pending_messages` (no serial transmission); `commit` on an
empty queue returns `False` and writes nothing; a successful `commit`
transmits the framed queue, clears it, and returns `True`; a failed
transmission propagates the `MatrixError` with the queue unchanged. -/
theorem C8_queue_atomicity :
    (∀ (c : Controller) (bitmap : List (List Nat)),
      bitmap.length ≤ 255 → (∀ block ∈ bitmap, ∀ b ∈ block, b ≤ 255) →
      send_bitmap c bitmap = some { c with pending_messages :=
        c.pending_messages ++ [0xA0 :: bitmap.length :: bitmap.flatten] }) ∧
    (∀ (c : Controller) (code value : Nat),
      1 ≤ code → code ≤ 15 → value ≤ 255 →
      set_parameter c code value = some { c with pending_messages :=
        c.pending_messages ++ [[0xA0 + code, value]] }) ∧
    (∀ (oracle : Nat → Option Nat) (c : Controller),
      c.pending_messages = [] →
      commit oracle c = (c, .ret false, none)) ∧
    (∀ (oracle : Nat → Option Nat) (c : Controller),
      c.pending_messages ≠ [] → c.pending_messages.length ≤ 255 →
      send_raw_datagram oracle c.max_tries = .ok →
      commit oracle c = ({ c with pending_messages := [] }, .ret true,
        some (0xFF :: c.pending_messages.length :: c.pending_messages.flatten))) ∧
    (∀ (oracle : Nat → Option Nat) (c : Controller) (e : Int),
      c.pending_messages ≠ [] → c.pending_messages.length ≤ 255 →
      send_raw_datagram oracle c.max_tries = .err e →
      commit oracle c = (c, .err e,
        some (0xFF :: c.pending_messages.length :: c.pending_messages.flatten))) ∧
    (∀ (oracle : Nat → Option Nat) (c : Controller),
      255 < c.pending_messages.length →
      commit oracle c = (c, .crash, none)) := by
  refine ⟨?_, ?_, ?_, ?_, ?_, ?_⟩
  · intro c bitmap h1 h2
    simp [send_bitmap, h1]
    exact h2
  · intro c code value h1 h2 h3
    simp [set_parameter, h1, h2, h3]
  · intro oracle c h
    simp [commit, h]
  · intro oracle c h hlen hok
    rw [commit, if_neg (by simpa using h), if_neg (by omega)]
    rw [hok]
  · intro oracle c e h hlen herr
    rw [commit, if_neg (by simpa using h), if_neg (by omega)]
    rw [herr]
  · intro oracle c hlen
    have hne : ¬c.pending_messages.isEmpty = true := by
      simp only [List.isEmpty_iff]
      intro hnil
      rw [hnil] at hlen
      simp at hlen
    rw [commit, if_neg hne, if_pos hlen]

/-- C8 witness: a parameter-set on a fresh controller queues
`[0xA2, 0x05]`; committing an empty queue returns `False` with no write;
committing the queued datagram against an always-acknowledging device
clears the queue; against an always-0x00 device the error propagates and
the queue is untouched; with 256 queued messages the count byte cannot
be built (`ValueError`), nothing is written and the queue is
untouched. -/
theorem C8_queue_atomicity_witness :
    set_parameter ⟨3, []⟩ 2 5 = some ⟨3, [[0xA2, 5]]⟩ ∧
    commit (fun _ => some 255) ⟨3, []⟩ = (⟨3, []⟩, .ret false, none) ∧
    commit (fun _ => some 255) ⟨3, [[0xA2, 5]]⟩ =
      (⟨3, []⟩, .ret true, some [0xFF, 1, 0xA2, 5]) ∧
    commit (fun _ => some 0) ⟨3, [[0xA2, 5]]⟩ =
      (⟨3, [[0xA2, 5]]⟩, .err (-1), some [0xFF, 1, 0xA2, 5]) ∧
    commit (fun _ => some 255) ⟨3, List.replicate 256 [0xA2, 5]⟩ =
      (⟨3, List.replicate 256 [0xA2, 5]⟩, .crash, none) := by
  have h := C8_queue_atomicity
  refine ⟨?_, ?_, ?_, ?_, ?_⟩
  · simpa using h.2.1 ⟨3, []⟩ 2 5 (by norm_num) (by norm_num) (by norm_num)
  · exact h.2.2.1 (fun _ => some 255) ⟨3, []⟩ rfl
  · simpa using h.2.2.2.1 (fun _ => some 255) ⟨3, [[0xA2, 5]]⟩ (by simp)
      (by decide) (by decide)
  · simpa using h.2.2.2.2.1 (fun _ => some 0) ⟨3, [[0xA2, 5]]⟩ (-1) (by simp)
      (by decide) (by decide)
  · exact h.2.2.2.2.2 (fun _ => some 255) ⟨3, List.replicate 256 [0xA2, 5]⟩
      (by rw [List.length_replicate]; omega)

/-! ## Lemmas about the bitmap codec -/

theorem foldl_shift_replicate_zero (x k : Nat) :
    List.foldl (fun acc b => 2 * acc + b) x (List.replicate k 0) = x * 2 ^ k := by
  induction k generalizing x with
  | zero => simp
  | succ k ih =>
    rw [List.replicate_succ, List.foldl_cons, ih]
    ring

theorem bitsToByte_append_zeros (bits : List Nat) (k : Nat) :
    bitsToByte (bits ++ List.replicate k 0) = bitsToByte bits * 2 ^ k := by
  rw [bitsToByte, List.foldl_append, foldl_shift_replicate_zero, bitsToByte]

theorem byteToBits_bitsToByte (b0 b1 b2 b3 b4 b5 b6 b7 : Nat)
    (h0 : b0 ≤ 1) (h1 : b1 ≤ 1) (h2 : b2 ≤ 1) (h3 : b3 ≤ 1)
    (h4 : b4 ≤ 1) (h5 : b5 ≤ 1) (h6 : b6 ≤ 1) (h7 : b7 ≤ 1) :
    byteToBits (bitsToByte [b0, b1, b2, b3, b4, b5, b6, b7]) =
      [b0, b1, b2, b3, b4, b5, b6, b7] := by
  simp only [byteToBits, bitsToByte, List.foldl_cons, List.foldl_nil,
    List.cons.injEq, and_true]
  refine ⟨?_, ?_, ?_, ?_, ?_, ?_, ?_, ?_⟩ <;> omega

theorem mapM_option_eq_map {α β : Type} (l : List α) (f : α → Option β)
    (g : α → β) (h : ∀ a ∈ l, f a = some (g a)) :
    l.mapM f = some (l.map g) := by
  induction l with
  | nil => rfl
  | cons a t ih =>
    rw [List.mapM_cons, h a (by simp), ih (fun x hx => h x (by simp [hx]))]
    rfl

theorem get?_eq_getD {α : Type} (l : List α) (i : Nat) (d : α)
    (h : i < l.length) : l.get? i = some (l.getD i d) := by
  induction l generalizing i with
  | nil => simp at h
  | cons a t ih =>
    cases i with
    | zero => rfl
    | succ j => exact ih j (by simpa using h)

theorem getD_map {α β : Type} (l : List α) (f : α → β) (i : Nat)
    (d : β) (e : α) (h : i < l.length) :
    (l.map f).getD i d = f (l.getD i e) := by
  induction l generalizing i with
  | nil => simp at h
  | cons a t ih =>
    cases i with
    | zero => rfl
    | succ j => exact ih j (by simpa using h)

theorem map_range_getD {α : Type} (l : List α) (d : α) :
    (List.range l.length).map (fun i => l.getD i d) = l := by
  induction l with
  | nil => rfl
  | cons a t ih =>
    rw [List.length_cons, List.range_succ_eq_map, List.map_cons,
      List.map_map]
    simpa [Function.comp_def, List.getD_cons_succ] using ih

theorem rowToBytes_length : ∀ r : List Nat,
    (rowToBytes r).length = (r.length + 7) / 8
  | [] => by simp [rowToBytes]
  | b0 :: b1 :: b2 :: b3 :: b4 :: b5 :: b6 :: b7 :: rest => by
    have ih := rowToBytes_length rest
    simp only [rowToBytes, List.length_cons, ih]
    omega
  | [_] => by simp [rowToBytes]
  | [_, _] => by simp [rowToBytes]
  | [_, _, _] => by simp [rowToBytes]
  | [_, _, _, _] => by simp [rowToBytes]
  | [_, _, _, _, _] => by simp [rowToBytes]
  | [_, _, _, _, _, _] => by simp [rowToBytes]
  | [_, _, _, _, _, _, _] => by simp [rowToBytes]

theorem flatten_byteToBits_rowToBytes : ∀ r : List Nat,
    (∀ b ∈ r, b ≤ 1) → r.length % 8 = 0 →
    ((rowToBytes r).map byteToBits).flatten = r
  | [], _, _ => rfl
  | b0 :: b1 :: b2 :: b3 :: b4 :: b5 :: b6 :: b7 :: rest, hb, hlen => by
    have hlen2 : rest.length % 8 = 0 := by
      simp only [List.length_cons] at hlen
      omega
    have ih := flatten_byteToBits_rowToBytes rest
      (fun b h => hb b (by simp [h])) hlen2
    simp only [rowToBytes, List.map_cons, List.flatten_cons, ih]
    rw [byteToBits_bitsToByte b0 b1 b2 b3 b4 b5 b6 b7
      (hb b0 (by simp)) (hb b1 (by simp)) (hb b2 (by simp))
      (hb b3 (by simp)) (hb b4 (by simp)) (hb b5 (by simp))
      (hb b6 (by simp)) (hb b7 (by simp))]
    rfl
  | [_], _, hlen => by simp at hlen
  | [_, _], _, hlen => by simp at hlen
  | [_, _, _], _, hlen => by simp at hlen
  | [_, _, _, _], _, hlen => by simp at hlen
  | [_, _, _, _, _], _, hlen => by simp at hlen
  | [_, _, _, _, _, _], _, hlen => by simp at hlen
  | [_, _, _, _, _, _, _], _, hlen => by simp at hlen

theorem long_bitmap_to_short_bitmap_cons (r0 : List Nat)
    (tl : List (List Nat)) :
    long_bitmap_to_short_bitmap (r0 :: tl) =
      (List.range (rowToBytes r0).length).mapM
        (fun x => ((r0 :: tl).map rowToBytes).mapM (fun row => row.get? x)) :=
  rfl

theorem pack_rectangular (g : List (List Nat)) (k : Nat) (hg : g ≠ [])
    (hk : ∀ row ∈ g, (rowToBytes row).length = k) :
    long_bitmap_to_short_bitmap g =
      some ((List.range k).map
        (fun x => (g.map rowToBytes).map (fun row => row.getD x 0))) := by
  cases g with
  | nil => exact absurd rfl hg
  | cons r0 tl =>
    have hr0 : (rowToBytes r0).length = k := hk r0 (by simp)
    rw [long_bitmap_to_short_bitmap_cons, hr0]
    refine mapM_option_eq_map _ _ _ ?_
    intro x hx
    have hxk : x < k := by simpa [List.mem_range] using hx
    refine mapM_option_eq_map _ _ _ ?_
    intro row hrow
    have : row.length = k := by
      obtain ⟨r, hr, rfl⟩ := List.mem_map.mp hrow
      exact hk r hr
    exact get?_eq_getD row x 0 (by omega)

theorem unpack_pack_rectangular (g : List (List Nat)) (k : Nat)
    (hk : ∀ row ∈ g, (rowToBytes row).length = k) (hk1 : 1 ≤ k) :
    short_bitmap_to_long_bitmap
        ((List.range k).map
          (fun x => (g.map rowToBytes).map (fun row => row.getD x 0)))
      = g.map (fun r => ((rowToBytes r).map byteToBits).flatten) := by
  obtain ⟨k0, rfl⟩ : ∃ k0, k = k0 + 1 := ⟨k - 1, by omega⟩
  rw [short_bitmap_to_long_bitmap]
  have hhead : (((List.range (k0 + 1)).map
      (fun x => (g.map rowToBytes).map (fun row => row.getD x 0))).headD []) =
      (g.map rowToBytes).map (fun row => row.getD 0 0) := by
    rw [List.range_succ_eq_map, List.map_cons]
    rfl
  rw [hhead, List.length_map, List.length_map]
  have hrows : ∀ y < g.length,
      (((List.range (k0 + 1)).map
          (fun x => (g.map rowToBytes).map (fun row => row.getD x 0))).map
        (fun block => byteToBits (block.getD y 0))).flatten =
      ((rowToBytes (g.getD y [])).map byteToBits).flatten := by
    intro y hy
    rw [List.map_map]
    have hcell : ∀ x : Nat,
        ((g.map rowToBytes).map (fun row => row.getD x 0)).getD y 0 =
          (rowToBytes (g.getD y [])).getD x 0 := by
      intro x
      rw [getD_map (g.map rowToBytes) _ y 0 []
            (by simpa using hy),
          getD_map g rowToBytes y [] [] hy]
    have hfun : ((fun block => byteToBits (block.getD y 0)) ∘
        (fun x => (g.map rowToBytes).map (fun row => row.getD x 0))) =
        fun x => byteToBits ((rowToBytes (g.getD y [])).getD x 0) := by
      funext x
      simp only [Function.comp_apply, hcell]
    rw [hfun]
    have hmem : g.getD y [] ∈ g := by
      rw [List.getD_eq_getElem g [] hy]
      exact List.getElem_mem hy
    have hlen : (rowToBytes (g.getD y [])).length = k0 + 1 := hk _ hmem
    have hlist : (List.range (k0 + 1)).map
        (fun x => (rowToBytes (g.getD y [])).getD x 0) =
        rowToBytes (g.getD y []) := by
      rw [← hlen]
      exact map_range_getD _ 0
    congr 1
    conv_rhs => rw [← hlist]
    rw [List.map_map]
    rfl
  calc (List.range g.length).map (fun y =>
        (((List.range (k0 + 1)).map
            (fun x => (g.map rowToBytes).map (fun row => row.getD x 0))).map
          (fun block => byteToBits (block.getD y 0))).flatten)
      = (List.range g.length).map (fun y =>
          ((rowToBytes (g.getD y [])).map byteToBits).flatten) := by
        refine List.map_congr_left ?_
        intro y hy
        exact hrows y (by simpa [List.mem_range] using hy)
    _ = ((List.range g.length).map (fun y => g.getD y [])).map
          (fun r => ((rowToBytes r).map byteToBits).flatten) := by
        rw [List.map_map]
        rfl
    _ = g.map (fun r => ((rowToBytes r).map byteToBits).flatten) := by
        rw [map_range_getD g []]

/-! ## Claims C2, C6, C3 -/

/-- C2: on a non-empty grid of width `w < num_blocks * 8`, centre
alignment pads with zeroes on both sides, the left pad is
`⌊(target - w) / 2⌋`, the right pad the rest, the odd leftover column
(when the shortfall is odd) lands on the right, and every resulting row
has exactly the target width. -/
theorem C2_center_padding (nb w : Nat) (g : List (List Nat)) (hg : g ≠ [])
    (hw : ∀ row ∈ g, row.length = w) (hlt : w < nb * 8) :
    align_long_bitmap nb g (some "center") =
      some (g.map (fun row =>
        List.replicate ((nb * 8 - w) / 2) 0 ++ row ++
        List.replicate (nb * 8 - w - (nb * 8 - w) / 2) 0)) ∧
    ((nb * 8 - w) % 2 = 1 →
      nb * 8 - w - (nb * 8 - w) / 2 = (nb * 8 - w) / 2 + 1) ∧
    (∀ row ∈ g.map (fun row =>
        List.replicate ((nb * 8 - w) / 2) 0 ++ row ++
        List.replicate (nb * 8 - w - (nb * 8 - w) / 2) 0),
      row.length = nb * 8) := by
  obtain ⟨r0, tl, rfl⟩ : ∃ r0 tl, g = r0 :: tl := by
    cases g with
    | nil => exact absurd rfl hg
    | cons a t => exact ⟨a, t, rfl⟩
  have hr0 : r0.length = w := hw r0 (by simp)
  refine ⟨?_, by omega, ?_⟩
  · have hpad : (nb * 8 - w) / 2 + w % 2 = nb * 8 - w - (nb * 8 - w) / 2 := by
      omega
    simp only [align_long_bitmap, List.head?_cons, hr0]
    rw [if_neg (by omega), if_pos hlt]
    simp only [hpad]
  · intro row hrow
    simp only [List.mem_map] at hrow
    obtain ⟨r, hr, rfl⟩ := hrow
    have := hw r hr
    simp only [List.length_append, List.length_replicate, this]
    omega

/-- C6: the centre-crop branch of `align_long_bitmap` is broken — at
width 18 against target width 16 (`num_blocks = 2`) it produces rows of
width 2 instead of 16, so aligning a second time pads the result back
out to 16 columns and idempotence fails; the claimed no-op cases
(matching width, unrecognized alignment) do hold on this input. -/
theorem C6_center_crop_bug :
    align_long_bitmap 2 [List.replicate 18 0] (some "center") =
      some [[0, 0]] ∧
    align_long_bitmap 2 [[0, 0]] (some "center") =
      some [List.replicate 16 0] ∧
    ([[0, 0]] : List (List Nat)) ≠ [List.replicate 16 0] ∧
    align_long_bitmap 2 [List.replicate 16 1] (some "center") =
      some [List.replicate 16 1] ∧
    align_long_bitmap 2 [List.replicate 18 0] (some "justify") =
      some [List.replicate 18 0] := by
  refine ⟨by decide, by decide, by decide, by decide, by decide⟩

/-- C3 counterexample: an 8 × 12 grid has height a multiple of 8, but
packing chunks each *row* into bytes, so unpacking widens the grid to
16 columns and the round trip fails; the divisibility condition must be
on the width, not the height. -/
theorem C3_counterexample :
    (8 % 8 = 0) ∧
    long_bitmap_to_short_bitmap (List.replicate 8 (List.replicate 12 0)) =
      some (List.replicate 2 (List.replicate 8 0)) ∧
    short_bitmap_to_long_bitmap (List.replicate 2 (List.replicate 8 0)) =
      List.replicate 8 (List.replicate 16 0) ∧
    List.replicate 8 (List.replicate 16 (0 : Nat)) ≠
      List.replicate 8 (List.replicate 12 0) := by
  refine ⟨by decide, by decide, by decide, by decide⟩

/-- C3 (amended): for every non-empty rectangular binary grid whose
*width* is a positive multiple of 8, unpacking the packed block form
produced by `long_bitmap_to_short_bitmap` recovers the grid exactly;
and a final group shorter than 8 pixels is deterministically zero-padded
in the least significant bits of its byte (`ljust` appends zero bits,
which multiplies the group's value by a power of two). -/
theorem C3_pack_roundtrip (g : List (List Nat)) (w : Nat) (hg : g ≠ [])
    (hw : ∀ row ∈ g, row.length = w)
    (hbin : ∀ row ∈ g, ∀ b ∈ row, b ≤ 1)
    (h8 : w % 8 = 0) (hpos : 0 < w) :
    (∃ blocks, long_bitmap_to_short_bitmap g = some blocks ∧
      short_bitmap_to_long_bitmap blocks = g) ∧
    (∀ bits : List Nat,
      bitsToByte (bits ++ List.replicate (8 - bits.length) 0) =
        bitsToByte bits * 2 ^ (8 - bits.length)) ∧
    (∀ (b0 : Nat) (bits : List Nat), (b0 :: bits).length < 8 →
      rowToBytes (b0 :: bits) =
        [bitsToByte ((b0 :: bits) ++
          List.replicate (8 - (b0 :: bits).length) 0)]) := by
  refine ⟨?_, fun bits => bitsToByte_append_zeros bits _, ?_⟩
  · have hk : ∀ row ∈ g, (rowToBytes row).length = (w + 7) / 8 := by
      intro row hrow
      rw [rowToBytes_length, hw row hrow]
    have hk1 : 1 ≤ (w + 7) / 8 := by omega
    refine ⟨_, pack_rectangular g ((w + 7) / 8) hg hk, ?_⟩
    rw [unpack_pack_rectangular g ((w + 7) / 8) hk hk1]
    have : ∀ row ∈ g, ((rowToBytes row).map byteToBits).flatten = row := by
      intro row hrow
      exact flatten_byteToBits_rowToBytes row (hbin row hrow)
        (by rw [hw row hrow]; exact h8)
    calc g.map (fun r => ((rowToBytes r).map byteToBits).flatten)
        = g.map id := List.map_congr_left (fun r hr => this r hr)
      _ = g := List.map_id g
  · intro b0 bits hlen
    match bits, hlen with
    | [], _ => rfl
    | [b1], _ => rfl
    | [b1, b2], _ => rfl
    | [b1, b2, b3], _ => rfl
    | [b1, b2, b3, b4], _ => rfl
    | [b1, b2, b3, b4, b5], _ => rfl
    | [b1, b2, b3, b4, b5, b6], _ => rfl
    | b1 :: b2 :: b3 :: b4 :: b5 :: b6 :: b7 :: rest, hlen =>
      exact absurd hlen (by simp)

/-- C3 witness: the round trip on a concrete 8 × 16 binary grid, via
the theorem, together with its hypotheses. -/
theorem C3_pack_roundtrip_witness :
    (∃ blocks,
      long_bitmap_to_short_bitmap
        (List.replicate 8 ((List.replicate 8 1) ++ (List.replicate 8 0))) =
        some blocks ∧
      short_bitmap_to_long_bitmap blocks =
        List.replicate 8 ((List.replicate 8 1) ++ (List.replicate 8 0))) := by
  refine (C3_pack_roundtrip
    (List.replicate 8 ((List.replicate 8 1) ++ (List.replicate 8 0))) 16
    (by decide) ?_ ?_ (by decide) (by decide)).1
  · intro row hrow
    rw [List.eq_of_mem_replicate hrow]
    decide
  · intro row hrow
    rw [List.eq_of_mem_replicate hrow]
    decide

/-- C2 witness: centre alignment of a single row of three ones on a
two-block (16 column) panel: pad 6 on the left, 7 on the right. -/
theorem C2_center_padding_witness :
    align_long_bitmap 2 [[1, 1, 1]] (some "center") =
      some [List.replicate 6 0 ++ [1, 1, 1] ++ List.replicate 7 0] ∧
    (16 - 3 - (16 - 3) / 2 : Nat) = (16 - 3) / 2 + 1 := by
  have h := C2_center_padding 2 3 [[1, 1, 1]] (by decide)
    (by intro row hrow; simp at hrow; subst hrow; rfl) (by decide)
  refine ⟨?_, h.2.1 (by decide)⟩
  have h1 := h.1
  norm_num at h1 ⊢
  exact h1

/-! ## Server data model: `matrix_server.py`

JSON scalar values as they occur in configurations and message-specific
config overrides. -/

inductive JValue where
  | jnull : JValue
  | jbool (b : Bool) : JValue
  | jint (n : Int) : JValue
  | jstr (s : String) : JValue
deriving DecidableEq, Repr

/-- Python `dict.get(key)` on an association list (first match). -/
def dictGet (m : List (String × JValue)) (key : String) : Option JValue :=
  match m with
  | [] => none
  | (k, v) :: rest => if k = key then some v else dictGet rest key

/-- Python `d[key] = v`: update in place when present, else append
(insertion order preserved, as in a Python dict). -/
def dictSet (m : List (String × JValue)) (key : String) (v : JValue) :
    List (String × JValue) :=
  match m with
  | [] => [(key, v)]
  | (k, w) :: rest =>
    if k = key then (k, v) :: rest else (k, w) :: dictSet rest key v

/-- The `data` dict of a non-sequence message, with the `.get(...)`
defaults already applied: a bitmap carries the grid, its
`blend_bitmap` flag and its `align` value; a text carries the string,
font, size, `align`, `parse_time_string` and `blend_bitmap`. -/
inductive ItemData where
  | bitmap (bitmap : List (List Nat)) (blend_bitmap : Bool)
      (align : Option String) : ItemData
  | text (text : String) (font : String) (size : Nat)
      (align : Option String) (parse_time_string : Bool)
      (blend_bitmap : Bool) : ItemData
deriving DecidableEq, Repr

/-- A non-sequence message dict: its `data`, its message-specific
config overrides (`.get('config', {})`) and its optional duration. -/
structure DataMessage where
  data : ItemData
  config : List (String × JValue)
  duration : Option Int
deriving DecidableEq, Repr

/-- A stored message: a single bitmap/text message, or a sequence
(whose `data` is the list of its sub-message dicts). -/
inductive Message where
  | item (m : DataMessage) : Message
  | sequence (items : List DataMessage) : Message
deriving DecidableEq, Repr

/-- One entry of `UPDATE_DATA`. -/
structure UpdateData where
  config_keys_changed : List String
  config_specific : List (String × JValue)
  message_changed : Bool
  sequence_cur_pos : Option Nat
  sequence_last_switched : Option Int
  time_string_last_result : Option String
deriving DecidableEq, Repr

/-- The shared server state: `CURRENT_BITMAP`, `CURRENT_MESSAGE`,
`CURRENT_CONFIG` and `UPDATE_DATA`, each one entry per panel (four
panels at server start). -/
structure ServerState where
  CURRENT_BITMAP : List (Option (List (List Nat)))
  CURRENT_MESSAGE : List (Option Message)
  CURRENT_CONFIG : List (List (String × JValue))
  UPDATE_DATA : List UpdateData
deriving DecidableEq, Repr

/-- The `message` field of a request: a partial-config dict (for
`control`) or a message dict (for `data`). -/
inductive ReqMessage where
  | config (m : List (String × JValue)) : ReqMessage
  | msg (m : Message) : ReqMessage
deriving DecidableEq, Repr

/-- An incoming JSON request, with the fields `process_message`
reads: `type`, `displays`, `keys` and `message` (each `none` when the
key is absent from the JSON object). -/
structure Request where
  type : Option String
  displays : Option (List Nat)
  keys : Option (List String)
  message : Option ReqMessage
deriving DecidableEq, Repr

/-- A reply from `process_message`.  `invalidType t` stands for the
Python dict `{'success': False, 'error': "<percent-formatted t> is not a
valid message type"}` (so it has `success: false` and an error string);
`ok` stands for `{'success': True}`; the snapshots are the query
replies keyed by display number. -/
inductive Reply where
  | invalidType (t : Option String) : Reply
  | ok : Reply
  | configSnapshot (m : List (Nat × List (String × JValue))) : Reply
  | messageSnapshot (m : List (Nat × Option Message)) : Reply
  | bitmapSnapshot (m : List (Nat × Option (List (List Nat)))) : Reply
deriving DecidableEq, Repr

/-- The `query-config` key filter: `if keys is None or key in keys`. -/
def keyFilter (ks : Option (List String)) (kv : String × JValue) : Bool :=
  match ks with
  | none => true
  | some l => l.contains kv.1

/-- The `control` branch of `process_message`: for each named display,
for each key of the partial config that is a recognized config key,
overwrite `CURRENT_CONFIG[display][key]` and append the key to
`config_keys_changed`.  A display index out of range raises
(`IndexError`, modelled as `none`). -/
def applyControl (s : ServerState) (displays : List Nat)
    (m : List (String × JValue)) : Option ServerState :=
  displays.foldlM (fun st d => do
    let cfg ← st.CURRENT_CONFIG.get? d
    let ud ← st.UPDATE_DATA.get? d
    let res := m.foldl (fun (p : List (String × JValue) × List String) kv =>
        if (dictGet p.1 kv.1).isSome then
          (dictSet p.1 kv.1 kv.2, p.2 ++ [kv.1])
        else p)
      (cfg, ud.config_keys_changed)
    pure { st with
      CURRENT_CONFIG := st.CURRENT_CONFIG.set d res.1,
      UPDATE_DATA := st.UPDATE_DATA.set d
        { ud with config_keys_changed := res.2 } }) s

/-- The `data` branch of `process_message`: replace the message of each
named display wholesale and set its `message_changed` flag. -/
def applyData (s : ServerState) (displays : List Nat) (m : Message) :
    Option ServerState :=
  displays.foldlM (fun st d => do
    let _ ← st.CURRENT_MESSAGE.get? d
    let ud ← st.UPDATE_DATA.get? d
    pure { st with
      CURRENT_MESSAGE := st.CURRENT_MESSAGE.set d (some m),
      UPDATE_DATA := st.UPDATE_DATA.set d
        { ud with message_changed := true } }) s

/-- `MatrixServer.process_message`.  An unrecognized `type` returns
the error reply before anything else is read; `control`/`data` mutate
the named panels; the three query types return snapshots, defaulting
absent `displays` to `(0, 1, 2, 3)` and absent `keys` to every config
key.  `none` models an uncaught exception (missing `message` field,
display index out of range). -/
def process_message (s : ServerState) (req : Request) :
    Option (ServerState × Reply) :=
  if req.type = some "control" then
    match req.message with
    | some (.config m) =>
      (applyControl s (req.displays.getD []) m).map (fun s2 => (s2, .ok))
    | _ => none
  else if req.type = some "data" then
    match req.message with
    | some (.msg m) =>
      (applyData s (req.displays.getD []) m).map (fun s2 => (s2, .ok))
    | _ => none
  else if req.type = some "query-config" then
    let displays := req.displays.getD [0, 1, 2, 3]
    (displays.mapM (fun d =>
      (s.CURRENT_CONFIG.get? d).map (fun cfg =>
        (d, cfg.filter (keyFilter req.keys))))).map
      (fun m => (s, .configSnapshot m))
  else if req.type = some "query-message" then
    let displays := req.displays.getD [0, 1, 2, 3]
    (displays.mapM (fun d =>
      (s.CURRENT_MESSAGE.get? d).map (fun m => (d, m)))).map
      (fun m => (s, .messageSnapshot m))
  else if req.type = some "query-bitmap" then
    let displays := req.displays.getD [0, 1, 2, 3]
    (displays.mapM (fun d =>
      (s.CURRENT_BITMAP.get? d).map (fun b => (d, b)))).map
      (fun m => (s, .bitmapSnapshot m))
  else
    some (s, .invalidType req.type)

/-- The per-panel default configuration from the `CURRENT_CONFIG` class
attribute of `MatrixServer`. -/
def defaultConfig : List (String × JValue) :=
  [("display_mode", .jstr "static"),
   ("scroll_speed", .jint 1),
   ("scroll_direction", .jstr "left"),
   ("scroll_mode", .jstr "repeat-on-disappearance"),
   ("scroll_gap", .jint 5),
   ("power_state", .jstr "off"),
   ("blink_frequency", .jint 0),
   ("stop_indicator", .jstr "off"),
   ("scroll_step", .jint 1),
   ("stop_indicator_blink_frequency", .jint 0)]

/-- The per-panel default `UPDATE_DATA` entry. -/
def initialUpdateData : UpdateData :=
  { config_keys_changed := []
    config_specific := []
    message_changed := false
    sequence_cur_pos := none
    sequence_last_switched := none
    time_string_last_result := none }

/-- The server state at process start: no bitmaps, no messages, default
config for all four panels. -/
def initialServerState : ServerState :=
  { CURRENT_BITMAP := List.replicate 4 none
    CURRENT_MESSAGE := List.replicate 4 none
    CURRENT_CONFIG := List.replicate 4 defaultConfig
    UPDATE_DATA := List.replicate 4 initialUpdateData }

/-! ## Claims C7, C10 -/

/-- C7: a request whose `type` is not one of the five recognized kinds
makes `process_message` return the `{'success': False, 'error': ...}`
reply immediately, with the entire server state unchanged. -/
theorem C7_invalid_type_rejected (s : ServerState) (req : Request)
    (h : req.type ∉ [some "control", some "data", some "query-config",
      some "query-message", some "query-bitmap"]) :
    process_message s req = some (s, .invalidType req.type) := by
  simp only [List.mem_cons, List.mem_singleton, not_or] at h
  obtain ⟨h1, h2, h3, h4, h5, -⟩ := h
  simp [process_message, h1, h2, h3, h4, h5]

/-- C7 witness: an unknown type `"bogus"` and a missing type are both
rejected with the state untouched. -/
theorem C7_invalid_type_rejected_witness :
    process_message initialServerState ⟨some "bogus", none, none, none⟩ =
      some (initialServerState, .invalidType (some "bogus")) ∧
    process_message initialServerState ⟨none, none, none, none⟩ =
      some (initialServerState, .invalidType none) := by
  constructor
  · exact C7_invalid_type_rejected initialServerState
      ⟨some "bogus", none, none, none⟩ (by decide)
  · exact C7_invalid_type_rejected initialServerState
      ⟨none, none, none, none⟩ (by decide)

/-- C10: the three query types return snapshots and leave every field
of the server state unchanged; an absent `displays` defaults to all
four panels and an absent `keys` to all config keys. -/
theorem C10_queries_pure (s : ServerState) (ds : Option (List Nat))
    (ks : Option (List String)) (mm : Option ReqMessage)
    (hlen1 : s.CURRENT_CONFIG.length = 4)
    (hlen2 : s.CURRENT_MESSAGE.length = 4)
    (hlen3 : s.CURRENT_BITMAP.length = 4)
    (hd : ∀ d ∈ ds.getD [0, 1, 2, 3], d < 4) :
    process_message s ⟨some "query-config", ds, ks, mm⟩ =
      some (s, .configSnapshot ((ds.getD [0, 1, 2, 3]).map (fun d =>
        (d, (s.CURRENT_CONFIG.getD d []).filter (keyFilter ks))))) ∧
    process_message s ⟨some "query-message", ds, ks, mm⟩ =
      some (s, .messageSnapshot ((ds.getD [0, 1, 2, 3]).map (fun d =>
        (d, s.CURRENT_MESSAGE.getD d none)))) ∧
    process_message s ⟨some "query-bitmap", ds, ks, mm⟩ =
      some (s, .bitmapSnapshot ((ds.getD [0, 1, 2, 3]).map (fun d =>
        (d, s.CURRENT_BITMAP.getD d none)))) ∧
    (ks = none →
      process_message s ⟨some "query-config", ds, none, mm⟩ =
        some (s, .configSnapshot ((ds.getD [0, 1, 2, 3]).map (fun d =>
          (d, s.CURRENT_CONFIG.getD d []))))) := by
  have hcfg : (ds.getD [0, 1, 2, 3]).mapM (fun d =>
      (s.CURRENT_CONFIG.get? d).map (fun cfg =>
        (d, cfg.filter (keyFilter ks)))) =
      some ((ds.getD [0, 1, 2, 3]).map (fun d =>
        (d, (s.CURRENT_CONFIG.getD d []).filter (keyFilter ks)))) := by
    refine mapM_option_eq_map _ _ _ ?_
    intro d hdm
    rw [get?_eq_getD s.CURRENT_CONFIG d [] (by rw [hlen1]; exact hd d hdm)]
    rfl
  have hmsg : (ds.getD [0, 1, 2, 3]).mapM (fun d =>
      (s.CURRENT_MESSAGE.get? d).map (fun m => (d, m))) =
      some ((ds.getD [0, 1, 2, 3]).map (fun d =>
        (d, s.CURRENT_MESSAGE.getD d none))) := by
    refine mapM_option_eq_map _ _ _ ?_
    intro d hdm
    rw [get?_eq_getD s.CURRENT_MESSAGE d none (by rw [hlen2]; exact hd d hdm)]
    rfl
  have hbmp : (ds.getD [0, 1, 2, 3]).mapM (fun d =>
      (s.CURRENT_BITMAP.get? d).map (fun b => (d, b))) =
      some ((ds.getD [0, 1, 2, 3]).map (fun d =>
        (d, s.CURRENT_BITMAP.getD d none))) := by
    refine mapM_option_eq_map _ _ _ ?_
    intro d hdm
    rw [get?_eq_getD s.CURRENT_BITMAP d none (by rw [hlen3]; exact hd d hdm)]
    rfl
  have hunfcfg : process_message s ⟨some "query-config", ds, ks, mm⟩ =
      ((ds.getD [0, 1, 2, 3]).mapM (fun d =>
        (s.CURRENT_CONFIG.get? d).map (fun cfg =>
          (d, cfg.filter (keyFilter ks))))).map
        (fun m => (s, .configSnapshot m)) := rfl
  refine ⟨?_, ?_, ?_, ?_⟩
  · rw [hunfcfg, hcfg]
    rfl
  · have hunf : process_message s ⟨some "query-message", ds, ks, mm⟩ =
        ((ds.getD [0, 1, 2, 3]).mapM (fun d =>
          (s.CURRENT_MESSAGE.get? d).map (fun m => (d, m)))).map
          (fun m => (s, .messageSnapshot m)) := rfl
    rw [hunf, hmsg]
    rfl
  · have hunf : process_message s ⟨some "query-bitmap", ds, ks, mm⟩ =
        ((ds.getD [0, 1, 2, 3]).mapM (fun d =>
          (s.CURRENT_BITMAP.get? d).map (fun b => (d, b)))).map
          (fun m => (s, .bitmapSnapshot m)) := rfl
    rw [hunf, hbmp]
    rfl
  · intro hks
    subst hks
    rw [hunfcfg, hcfg]
    simp only [show keyFilter none = fun kv => true from rfl, List.filter_true]
    rfl

/-- C10 witness: the three queries with absent `displays` and `keys`
on the freshly started server return the four-panel snapshots and keep
the state identical. -/
theorem C10_queries_pure_witness :
    process_message initialServerState
        ⟨some "query-message", none, none, none⟩ =
      some (initialServerState, .messageSnapshot
        [(0, none), (1, none), (2, none), (3, none)]) ∧
    process_message initialServerState
        ⟨some "query-config", none, none, none⟩ =
      some (initialServerState, .configSnapshot
        [(0, defaultConfig), (1, defaultConfig),
         (2, defaultConfig), (3, defaultConfig)]) := by
  have h := C10_queries_pure initialServerState none none none
    (by decide) (by decide) (by decide) (by decide)
  constructor
  · have h2 := h.2.1
    simpa using h2
  · have h4 := h.2.2.2 rfl
    simpa [initialServerState] using h4

/-! ## Control loop: one per-panel iteration of
`MatrixServer.control_loop` -/

/-- The environment of one control-loop iteration: the tick time
(`time.time()`), the time formatter (`datetime.datetime.now().strftime`,
an external effect), the external text rasterizer
(`MatrixGraphics.build_text`, which the spec designates an external
collaborator returning a pixel grid), and the controller's block
count. -/
structure TickEnv where
  now : Int
  strftime : String → String
  rasterize : String → String → Nat → Option String → List (List Nat)
  num_blocks : Nat

/-- The slice of the shared server state for one panel. -/
structure PanelState where
  config : List (String × JValue)
  message : Option Message
  bitmap : Option (List (List Nat))
  update : UpdateData
deriving DecidableEq, Repr

/-- Result of one per-panel iteration: the new panel state, the
`set_config(display, key, value)` calls issued (in order), and the
packed bitmaps handed to the controller queue. -/
structure TickOutcome where
  panel : PanelState
  applied : List (String × JValue)
  sent : List (List (List Nat))
deriving DecidableEq, Repr

/-- `MatrixServer.set_bitmap` (alignment, optional blending with the
previously stored bitmap, store) followed by
`MatrixGraphics.send_long_bitmap` (a second no-op alignment pass with
`align = None`, then packing; the packed blocks are queued on the
controller, recorded here as the second component).  Blending with no
stored bitmap raises (`blend_long_bitmaps(None, ...)`). -/
def set_bitmap (nb : Nat) (current : Option (List (List Nat)))
    (bitmap : List (List Nat)) (blend : Bool) (align : Option String) :
    Option (List (List Nat) × List (List Nat)) := do
  let new_bitmap ← align_long_bitmap nb bitmap align
  let resulting ←
    if blend then do
      let cur ← current
      blend_long_bitmaps cur new_bitmap
    else pure new_bitmap
  let aligned ← align_long_bitmap nb resulting none
  let short ← long_bitmap_to_short_bitmap aligned
  pure (resulting, short)

/-- The fold step of the message-specific override application loop
(lines 329-333): skip an override whose recorded value matches, else
apply it (`set_config`) and record it. -/
def ovStep (acc : List (String × JValue) × List (String × JValue))
    (kv : String × JValue) :
    List (String × JValue) × List (String × JValue) :=
  if dictGet acc.1 kv.1 == some kv.2 then acc
  else (dictSet acc.1 kv.1 kv.2, acc.2 ++ [kv])

/-- Lines 321-333 of `matrix_server.py`: reset every previously
overridden config key that is absent from the new effective item's
override set to its baseline value and drop it from
`config_specific`; then apply and record every override whose value
differs from the recorded one.  Returns the new `config_specific` and
the `set_config` calls made.  A recorded override key missing from the
baseline config raises (`CURRENT_CONFIG[display][key]`). -/
def syncOverrides (baseline config_specific overrides :
    List (String × JValue)) :
    Option (List (String × JValue) × List (String × JValue)) := do
  let reset_keys := (config_specific.map Prod.fst).filter
    (fun key => (dictGet overrides key).isNone)
  let resetApplied ← reset_keys.mapM (fun key =>
    (dictGet baseline key).map (fun v => (key, v)))
  let cs1 := config_specific.filter
    (fun kv => (dictGet overrides kv.1).isSome)
  let res := overrides.foldl ovStep (cs1, [])
  pure (res.1, resetApplied ++ res.2)

/-- Lines 289-333 of `matrix_server.py`: the time-string computation,
the `needs_refresh` decision, the render (`set_bitmap`, or rasterize
then `set_bitmap`), and the override sync.  Inputs are the panel's
baseline config, its stored bitmap, the current
`time_string_last_result` and `config_specific`, the (pre-reset)
`message_changed` flag, the effective item and whether the sequence
just advanced; returns the new stored bitmap, the new
`time_string_last_result`, the new `config_specific`, the `set_config`
calls and the packed bitmaps sent. -/
def tickRender (env : TickEnv) (config : List (String × JValue))
    (curBitmap : Option (List (List Nat))) (timeLast : Option String)
    (cs : List (String × JValue)) (mc : Bool) (actual : DataMessage)
    (needsSwitch : Bool) :
    Option (Option (List (List Nat)) × Option String ×
      List (String × JValue) × List (String × JValue) ×
      List (List (List Nat))) := do
  let curTime : Option String :=
    match actual.data with
    | .text text _ _ _ pts _ =>
      if pts then some (env.strftime text) else none
    | .bitmap _ _ _ => none
  let needs_refresh := mc ||
    (curTime.isSome && decide (curTime ≠ timeLast)) || needsSwitch
  if needs_refresh then do
    let rendered ←
      match actual.data with
      | .bitmap bitmap blend align => do
        let rs ← set_bitmap env.num_blocks curBitmap bitmap blend align
        pure (some rs.1, (none : Option String), [rs.2])
      | .text text font size align pts blend => do
        let txt := if pts then curTime.getD "" else text
        let bmp := env.rasterize txt font size align
        let rs ← set_bitmap env.num_blocks curBitmap bmp blend none
        pure (some rs.1, if pts then curTime else none, [rs.2])
    if needsSwitch || mc then do
      let so ← syncOverrides config cs actual.config
      pure (rendered.1, rendered.2.1, so.1, so.2, rendered.2.2)
    else
      pure (rendered.1, rendered.2.1, cs, [], rendered.2.2)
  else
    pure (curBitmap, timeLast, cs, [], [])

/-- One iteration of the `for display, message in ...` body of
`MatrixServer.control_loop` for a single panel (lines 243-334):
process pending config changes (`set_config` for each changed key,
power-on forcing a redraw), skip when there is no message or power is
`'off'` (Python's `or` checks the message first), reset the sequence /
time-string bookkeeping on a just-replaced message, advance a due
sequence, render, sync overrides, and clear `message_changed`.
`none` models an uncaught exception inside the tick (the `except:` in
`control_loop` then moves on to the next panel). -/
def controlTick (env : TickEnv) (p : PanelState) : Option TickOutcome := do
  let applied0 ← p.update.config_keys_changed.mapM (fun key =>
    (dictGet p.config key).map (fun v => (key, v)))
  let mc := p.update.message_changed ||
    p.update.config_keys_changed.any (fun key =>
      key == "power_state" &&
      (dictGet p.config "power_state" == some (.jstr "on")))
  let u1 : UpdateData :=
    { p.update with config_keys_changed := [], message_changed := mc }
  match p.message with
  | none =>
    pure ⟨{ p with update := u1 }, applied0, []⟩
  | some msg => do
    let pw ← dictGet p.config "power_state"
    if pw == JValue.jstr "off" then
      pure ⟨{ p with update := u1 }, applied0, []⟩
    else do
      let u2 : UpdateData :=
        if mc then
          match msg with
          | .sequence _ =>
            { u1 with sequence_cur_pos := some 0,
                      sequence_last_switched := some env.now,
                      time_string_last_result := none }
          | .item m =>
            match m.data with
            | .text text _ _ _ pts _ =>
              { u1 with sequence_cur_pos := none,
                        sequence_last_switched := none,
                        time_string_last_result :=
                          if pts then some (env.strftime text) else none }
            | .bitmap _ _ _ =>
              { u1 with sequence_cur_pos := none,
                        sequence_last_switched := none,
                        time_string_last_result := none }
        else u1
      match msg with
      | .item m => do
        let r ← tickRender env p.config p.bitmap u2.time_string_last_result
          u2.config_specific mc m false
        let newPanel : PanelState := { p with
          bitmap := r.1
          update := { u2 with
            time_string_last_result := r.2.1
            config_specific := r.2.2.1
            message_changed := false } }
        pure ⟨newPanel, applied0 ++ r.2.2.2.1, r.2.2.2.2⟩
      | .sequence items => do
        let pos ← u2.sequence_cur_pos
        let item ← items.get? pos
        let last ← u2.sequence_last_switched
        let dur ← item.duration
        if env.now - last ≥ dur then do
          let newPos := if pos = items.length - 1 then 0 else pos + 1
          let item2 ← items.get? newPos
          let u3 := { u2 with
            sequence_cur_pos := some newPos
            sequence_last_switched := some env.now }
          let r ← tickRender env p.config p.bitmap u3.time_string_last_result
            u3.config_specific mc item2 true
          let newPanel : PanelState := { p with
            bitmap := r.1
            update := { u3 with
              time_string_last_result := r.2.1
              config_specific := r.2.2.1
              message_changed := false } }
          pure ⟨newPanel, applied0 ++ r.2.2.2.1, r.2.2.2.2⟩
        else do
          let r ← tickRender env p.config p.bitmap u2.time_string_last_result
            u2.config_specific mc item false
          let newPanel : PanelState := { p with
            bitmap := r.1
            update := { u2 with
              time_string_last_result := r.2.1
              config_specific := r.2.2.1
              message_changed := false } }
          pure ⟨newPanel, applied0 ++ r.2.2.2.1, r.2.2.2.2⟩

/-! ## Claim C4 -/

/-- C4: on a steady-state tick (no pending config changes, message not
just replaced, power not off) of a panel showing a sequence, when the
elapsed time since the last switch is at least the current item's
duration, the tick advances the cursor by one, wrapping from the last
index to 0 (the new cursor is always within bounds), and records the
tick time as the new switch time. -/
theorem C4_sequence_advance (env : TickEnv) (p : PanelState)
    (items : List DataMessage) (pos : Nat) (item : DataMessage) (t d : Int)
    (pw : JValue) (out : TickOutcome)
    (hmsg : p.message = some (.sequence items))
    (hchanged : p.update.config_keys_changed = [])
    (hmc : p.update.message_changed = false)
    (hpw : dictGet p.config "power_state" = some pw)
    (hpwon : pw ≠ .jstr "off")
    (hpos : p.update.sequence_cur_pos = some pos)
    (hitem : items.get? pos = some item)
    (hlast : p.update.sequence_last_switched = some t)
    (hdur : item.duration = some d)
    (helapsed : env.now - t ≥ d)
    (hout : controlTick env p = some out) :
    out.panel.update.sequence_cur_pos =
      some (if pos = items.length - 1 then 0 else pos + 1) ∧
    (if pos = items.length - 1 then 0 else pos + 1) < items.length ∧
    out.panel.update.sequence_last_switched = some env.now := by
  have hlt : pos < items.length := by
    rcases List.get?_eq_some.mp hitem with ⟨h, -⟩
    exact h
  have hpwoff : (pw == JValue.jstr "off") = false := by
    simpa using hpwon
  simp only [controlTick, hchanged, hmc, hmsg, hpw, List.mapM_nil,
    Option.bind_eq_bind, Option.some_bind, Option.pure_def,
    List.any_nil, Bool.or_false, Bool.false_or,
    if_false, Bool.false_eq_true, hpwoff, hpos, hlast] at hout
  rw [hitem] at hout
  simp only [Option.bind_eq_bind, Option.some_bind, hdur] at hout
  rw [if_pos helapsed] at hout
  rcases hget2 : items.get? (if pos = items.length - 1 then 0 else pos + 1)
    with _ | item2
  · rw [hget2] at hout
    simp at hout
  · rw [hget2] at hout
    simp only [Option.bind_eq_bind, Option.some_bind] at hout
    rcases hr : tickRender env p.config p.bitmap
        p.update.time_string_last_result p.update.config_specific false
        item2 true
      with _ | r
    · rw [hr] at hout
      simp at hout
    · rw [hr] at hout
      simp only [Option.bind_eq_bind, Option.some_bind, Option.pure_def,
        Option.some.injEq] at hout
      subst hout
      refine ⟨rfl, ?_, rfl⟩
      split <;> omega

/-- Concrete one-second sequence item for the C4 scenario. -/
def c4Item : DataMessage := ⟨.bitmap [[0]] false none, [], some 1⟩

/-- Three-item sequence with per-item durations [1, 1, 1]. -/
def c4Items : List DataMessage := [c4Item, c4Item, c4Item]

/-- Tick environment at the given time (trivial rasterizer, zero
blocks). -/
def c4Env (now : Int) : TickEnv := ⟨now, fun _ => "", fun _ _ _ _ => [[0]], 0⟩

/-- Panel showing the three-item sequence at cursor `pos`, last
switched at `t`, power on, steady state. -/
def c4Panel (pos : Nat) (t : Int) : PanelState :=
  ⟨[("power_state", .jstr "on")], some (.sequence c4Items), none,
   ⟨[], [], false, some pos, some t, none⟩⟩

/-- The tick outcome of the wrap step of the C4 scenario. -/
def c4Out : TickOutcome :=
  ⟨⟨[("power_state", .jstr "on")], some (.sequence c4Items), some [[0]],
    ⟨[], [], false, some 0, some 3, none⟩⟩, [], [[[0]]]⟩

/-- C4 witness: at cursor 2 of the 3-item sequence with elapsed time 1 ≥
duration 1 the tick wraps the cursor to 0 (not 3) and stamps the switch
time; and chaining three due ticks from cursor 0 returns the cursor to
0. -/
theorem C4_sequence_advance_witness :
    c4Out.panel.update.sequence_cur_pos = some 0 ∧
    c4Out.panel.update.sequence_last_switched = some 3 ∧
    ((controlTick (c4Env 1) (c4Panel 0 0)).bind (fun o1 =>
      (controlTick (c4Env 2) o1.panel).bind (fun o2 =>
      (controlTick (c4Env 3) o2.panel).map (fun o3 =>
        o3.panel.update.sequence_cur_pos))) = some (some 0)) := by
  have h := C4_sequence_advance (c4Env 3) (c4Panel 2 2) c4Items 2 c4Item
    2 1 (.jstr "on") c4Out rfl rfl rfl (by decide) (by decide) rfl
    (by decide) rfl (by decide) (by decide) (by decide)
  refine ⟨?_, h.2.2, by decide⟩
  have h1 := h.1
  norm_num [c4Items] at h1
  exact h1

/-! ## Dictionary and override-sync lemmas for C5 -/

theorem dictGet_dictSet_self (m : List (String × JValue)) (k : String)
    (v : JValue) : dictGet (dictSet m k v) k = some v := by
  induction m with
  | nil => simp [dictSet, dictGet]
  | cons kv rest ih =>
    by_cases h : kv.1 = k
    · simp [dictSet, dictGet, h]
    · simp [dictSet, dictGet, h, ih]

theorem dictGet_dictSet_ne (m : List (String × JValue)) (k : String)
    (v : JValue) (k' : String) (h : k' ≠ k) :
    dictGet (dictSet m k v) k' = dictGet m k' := by
  induction m with
  | nil => simp [dictSet, dictGet, if_neg (Ne.symm h)]
  | cons kv rest ih =>
    by_cases hk : kv.1 = k
    · subst hk
      simp only [dictSet, if_pos rfl, dictGet]
      rw [if_neg (Ne.symm h), if_neg (Ne.symm h)]
    · simp only [dictSet, if_neg hk, dictGet]
      by_cases hk2 : kv.1 = k'
      · simp [hk2]
      · simp [hk2, ih]

theorem dictGet_eq_none_of_not_mem (m : List (String × JValue))
    (key : String) (h : key ∉ m.map Prod.fst) : dictGet m key = none := by
  induction m with
  | nil => rfl
  | cons kv rest ih =>
    simp only [List.map_cons, List.mem_cons, not_or] at h
    simp only [dictGet, if_neg (Ne.symm h.1)]
    exact ih h.2

theorem dictGet_some_mem (m : List (String × JValue)) (key : String)
    (v : JValue) (h : dictGet m key = some v) : key ∈ m.map Prod.fst := by
  induction m with
  | nil => simp [dictGet] at h
  | cons kv rest ih =>
    by_cases hk : kv.1 = key
    · simp [hk]
    · simp only [dictGet, if_neg hk] at h
      simp [ih h]

theorem dictGet_filter_notin (cs ov : List (String × JValue))
    (key : String) (h : dictGet ov key = none) :
    dictGet (cs.filter (fun kv => (dictGet ov kv.1).isSome)) key = none := by
  induction cs with
  | nil => rfl
  | cons kv rest ih =>
    by_cases hk : kv.1 = key
    · subst hk
      simp only [List.filter_cons, h, Option.isSome_none]
      exact ih
    · simp only [List.filter_cons]
      by_cases hs : (dictGet ov kv.1).isSome
      · simp only [hs, if_pos]
        simp only [dictGet, if_neg hk]
        exact ih
      · simp only [Bool.not_eq_true] at hs
        simp only [hs, Bool.false_eq_true, if_false]
        exact ih

theorem dictGet_filter_in (cs ov : List (String × JValue)) (key : String)
    (h : (dictGet ov key).isSome) :
    dictGet (cs.filter (fun kv => (dictGet ov kv.1).isSome)) key =
      dictGet cs key := by
  induction cs with
  | nil => rfl
  | cons kv rest ih =>
    by_cases hk : kv.1 = key
    · subst hk
      simp only [List.filter_cons, h, if_pos, dictGet, if_pos rfl]
    · simp only [List.filter_cons]
      by_cases hs : (dictGet ov kv.1).isSome
      · simp only [hs, if_pos, dictGet, if_neg hk]
        exact ih
      · simp only [Bool.not_eq_true] at hs
        simp only [hs, Bool.false_eq_true, if_false, dictGet, if_neg hk]
        exact ih

theorem mapM_mem_of_mem {α β : Type} (l : List α) (f : α → Option β)
    (res : List β) (h : l.mapM f = some res) (a : α) (ha : a ∈ l) :
    ∃ b, f a = some b ∧ b ∈ res := by
  induction l generalizing res with
  | nil => simp at ha
  | cons x t ih =>
    rw [List.mapM_cons] at h
    rcases hx : f x with _ | bx
    · rw [hx] at h
      simp at h
    · rw [hx] at h
      rcases ht : t.mapM f with _ | bt
      · rw [ht] at h
        simp at h
      · rw [ht] at h
        simp only [Option.bind_eq_bind, Option.some_bind, Option.pure_def,
          Option.some.injEq] at h
        subst h
        rcases List.mem_cons.mp ha with rfl | hat
        · exact ⟨bx, hx, by simp⟩
        · obtain ⟨b, hb, hbmem⟩ := ih bt ht hat
          exact ⟨b, hb, by simp [hbmem]⟩

theorem ovFold_preserve_notin (ov : List (String × JValue)) :
    ∀ (acc : List (String × JValue) × List (String × JValue))
      (key : String), dictGet ov key = none →
      dictGet (ov.foldl ovStep acc).1 key = dictGet acc.1 key := by
  induction ov with
  | nil => intro acc key _; rfl
  | cons kv rest ih =>
    intro acc key h
    have hk : kv.1 ≠ key := by
      intro hh
      simp [dictGet, hh] at h
    have hrest : dictGet rest key = none := by
      simpa [dictGet, hk] using h
    rw [List.foldl_cons, ih (ovStep acc kv) key hrest]
    unfold ovStep
    by_cases hc : dictGet acc.1 kv.1 == some kv.2
    · simp [hc]
    · simp only [Bool.not_eq_true] at hc
      simp only [hc, Bool.false_eq_true, if_false]
      exact dictGet_dictSet_ne acc.1 kv.1 kv.2 key (fun hh => hk hh.symm)

theorem ovFold_applied_mono (ov : List (String × JValue)) :
    ∀ (acc : List (String × JValue) × List (String × JValue))
      (x : String × JValue), x ∈ acc.2 → x ∈ (ov.foldl ovStep acc).2 := by
  induction ov with
  | nil => intro acc x hx; exact hx
  | cons kv rest ih =>
    intro acc x hx
    rw [List.foldl_cons]
    refine ih (ovStep acc kv) x ?_
    unfold ovStep
    by_cases hc : dictGet acc.1 kv.1 == some kv.2
    · simp [hc, hx]
    · simp only [Bool.not_eq_true] at hc
      simp [hc, hx]

theorem ovFold_lookup_in (ov : List (String × JValue))
    (hnodup : (ov.map Prod.fst).Nodup) :
    ∀ (acc : List (String × JValue) × List (String × JValue))
      (key : String) (v : JValue), dictGet ov key = some v →
      dictGet (ov.foldl ovStep acc).1 key = some v := by
  induction ov with
  | nil => intro acc key v h; simp [dictGet] at h
  | cons kv rest ih =>
    intro acc key v h
    simp only [List.map_cons, List.nodup_cons] at hnodup
    rw [List.foldl_cons]
    by_cases hk : kv.1 = key
    · subst hk
      have hv : v = kv.2 := by
        have h2 : dictGet (kv :: rest) kv.1 = some kv.2 := by
          simp [dictGet]
        rw [h2] at h
        exact (Option.some.inj h).symm
      subst hv
      have hrest : dictGet rest kv.1 = none :=
        dictGet_eq_none_of_not_mem rest kv.1 hnodup.1
      rw [ovFold_preserve_notin rest (ovStep acc kv) kv.1 hrest]
      unfold ovStep
      by_cases hc : dictGet acc.1 kv.1 == some kv.2
      · simp only [hc, if_pos]
        exact eq_of_beq hc
      · simp only [Bool.not_eq_true] at hc
        simp only [hc, Bool.false_eq_true, if_false]
        exact dictGet_dictSet_self acc.1 kv.1 kv.2
    · have hrest : dictGet rest key = some v := by
        simpa [dictGet, hk] using h
      exact ih hnodup.2 (ovStep acc kv) key v hrest

theorem ovFold_applied_in (ov : List (String × JValue))
    (hnodup : (ov.map Prod.fst).Nodup) :
    ∀ (acc : List (String × JValue) × List (String × JValue))
      (key : String) (v : JValue), dictGet ov key = some v →
      dictGet acc.1 key ≠ some v →
      (key, v) ∈ (ov.foldl ovStep acc).2 := by
  induction ov with
  | nil => intro acc key v h _; simp [dictGet] at h
  | cons kv rest ih =>
    intro acc key v h hne
    simp only [List.map_cons, List.nodup_cons] at hnodup
    rw [List.foldl_cons]
    by_cases hk : kv.1 = key
    · subst hk
      have hv : v = kv.2 := by
        have h2 : dictGet (kv :: rest) kv.1 = some kv.2 := by
          simp [dictGet]
        rw [h2] at h
        exact (Option.some.inj h).symm
      subst hv
      have hc : (dictGet acc.1 kv.1 == some kv.2) = false := by
        simpa using hne
      refine ovFold_applied_mono rest (ovStep acc kv) (kv.1, kv.2) ?_
      unfold ovStep
      simp [hc]
    · have hrest : dictGet rest key = some v := by
        simpa [dictGet, hk] using h
      have hne2 : dictGet (ovStep acc kv).1 key ≠ some v := by
        unfold ovStep
        by_cases hc : dictGet acc.1 kv.1 == some kv.2
        · simpa [hc] using hne
        · simp only [Bool.not_eq_true] at hc
          simp only [hc, Bool.false_eq_true, if_false]
          rw [dictGet_dictSet_ne acc.1 kv.1 kv.2 key
            (fun hh => hk hh.symm)]
          exact hne
      exact ih hnodup.2 (ovStep acc kv) key v hrest hne2

/-- Correctness of the override sync (lines 321-333): the new
`config_specific` agrees with the new item's override set everywhere;
every previously recorded key absent from the new override set is reset
to its baseline value (a `set_config` call appears in the output);
every override whose value differs from the recorded one is applied. -/
theorem syncOverrides_spec (baseline cs ov : List (String × JValue))
    (so : List (String × JValue) × List (String × JValue))
    (h : syncOverrides baseline cs ov = some so)
    (hnodup : (ov.map Prod.fst).Nodup) :
    (∀ key, dictGet so.1 key = dictGet ov key) ∧
    (∀ key v, dictGet cs key = some v → dictGet ov key = none →
      ∃ bv, dictGet baseline key = some bv ∧ (key, bv) ∈ so.2) ∧
    (∀ key v, dictGet ov key = some v → dictGet cs key ≠ some v →
      (key, v) ∈ so.2) := by
  rcases hra : ((cs.map Prod.fst).filter
      (fun key => (dictGet ov key).isNone)).mapM (fun key =>
        (dictGet baseline key).map (fun v => (key, v))) with _ | ra
  · rw [syncOverrides, hra] at h
    simp at h
  · rw [syncOverrides, hra] at h
    simp only [Option.bind_eq_bind, Option.some_bind, Option.pure_def,
      Option.some.injEq] at h
    subst h
    refine ⟨?_, ?_, ?_⟩
    · intro key
      rcases hov : dictGet ov key with _ | v
      · rw [ovFold_preserve_notin ov _ key hov]
        exact dictGet_filter_notin cs ov key hov
      · exact ovFold_lookup_in ov hnodup _ key v hov
    · intro key v hcs hovnone
      have hmemf : key ∈ (cs.map Prod.fst).filter
          (fun key => (dictGet ov key).isNone) := by
        rw [List.mem_filter]
        exact ⟨dictGet_some_mem cs key v hcs, by simp [hovnone]⟩
      obtain ⟨b, hb, hbmem⟩ := mapM_mem_of_mem _ _ ra hra key hmemf
      rcases hbase : dictGet baseline key with _ | bv
      · rw [hbase] at hb
        simp at hb
      · rw [hbase] at hb
        have hb2 : (key, bv) = b := Option.some.inj hb
        subst hb2
        exact ⟨bv, rfl, List.mem_append_left _ hbmem⟩
    · intro key v hov hne
      have hcs1 : dictGet (cs.filter
          (fun kv => (dictGet ov kv.1).isSome)) key ≠ some v := by
        rw [dictGet_filter_in cs ov key (by simp [hov])]
        exact hne
      exact List.mem_append_right _ (ovFold_applied_in ov hnodup
        (cs.filter (fun kv => (dictGet ov kv.1).isSome), []) key v hov hcs1)

theorem tickRender_mc_sync (env : TickEnv)
    (config : List (String × JValue)) (curB : Option (List (List Nat)))
    (timeLast : Option String) (cs : List (String × JValue))
    (actual : DataMessage) (ns : Bool)
    (r : Option (List (List Nat)) × Option String ×
      List (String × JValue) × List (String × JValue) ×
      List (List (List Nat)))
    (h : tickRender env config curB timeLast cs true actual ns = some r) :
    ∃ so, syncOverrides config cs actual.config = some so ∧
      r.2.2.1 = so.1 ∧ r.2.2.2.1 = so.2 := by
  rcases actual with ⟨mdata, mcfg, mdur⟩
  cases mdata with
  | bitmap bitmap blend align =>
    simp only [tickRender, Bool.true_or, Bool.or_true, if_true,
      Option.bind_eq_bind, Option.pure_def] at h
    rcases hsb : set_bitmap env.num_blocks curB bitmap blend align
      with _ | rs
    · rw [hsb] at h
      simp at h
    · rw [hsb] at h
      simp only [Option.some_bind] at h
      rcases hso : syncOverrides config cs mcfg with _ | so
      · rw [hso] at h
        simp at h
      · rw [hso] at h
        simp only [Option.some_bind, Option.some.injEq] at h
        subst h
        exact ⟨so, rfl, rfl, rfl⟩
  | text text font size align pts blend =>
    simp only [tickRender, Bool.true_or, Bool.or_true, if_true,
      Option.bind_eq_bind, Option.pure_def] at h
    rcases hsb : set_bitmap env.num_blocks curB
        (env.rasterize (if pts then
          (if pts then some (env.strftime text) else none).getD "" else text)
          font size align) blend none
      with _ | rs
    · rw [hsb] at h
      simp at h
    · rw [hsb] at h
      simp only [Option.some_bind] at h
      rcases hso : syncOverrides config cs mcfg with _ | so
      · rw [hso] at h
        simp at h
      · rw [hso] at h
        simp only [Option.some_bind, Option.some.injEq] at h
        subst h
        exact ⟨so, rfl, rfl, rfl⟩

theorem tickRender_ns_sync (env : TickEnv)
    (config : List (String × JValue)) (curB : Option (List (List Nat)))
    (timeLast : Option String) (cs : List (String × JValue))
    (mc : Bool) (actual : DataMessage)
    (r : Option (List (List Nat)) × Option String ×
      List (String × JValue) × List (String × JValue) ×
      List (List (List Nat)))
    (h : tickRender env config curB timeLast cs mc actual true = some r) :
    ∃ so, syncOverrides config cs actual.config = some so ∧
      r.2.2.1 = so.1 ∧ r.2.2.2.1 = so.2 := by
  rcases actual with ⟨mdata, mcfg, mdur⟩
  cases mdata with
  | bitmap bitmap blend align =>
    simp only [tickRender, Bool.true_or, Bool.or_true, if_true,
      Option.bind_eq_bind, Option.pure_def] at h
    rcases hsb : set_bitmap env.num_blocks curB bitmap blend align
      with _ | rs
    · rw [hsb] at h
      simp at h
    · rw [hsb] at h
      simp only [Option.some_bind] at h
      rcases hso : syncOverrides config cs mcfg with _ | so
      · rw [hso] at h
        simp at h
      · rw [hso] at h
        simp only [Option.some_bind, Option.some.injEq] at h
        subst h
        exact ⟨so, rfl, rfl, rfl⟩
  | text text font size align pts blend =>
    simp only [tickRender, Bool.true_or, Bool.or_true, if_true,
      Option.bind_eq_bind, Option.pure_def] at h
    rcases hsb : set_bitmap env.num_blocks curB
        (env.rasterize (if pts then
          (if pts then some (env.strftime text) else none).getD "" else text)
          font size align) blend none
      with _ | rs
    · rw [hsb] at h
      simp at h
    · rw [hsb] at h
      simp only [Option.some_bind] at h
      rcases hso : syncOverrides config cs mcfg with _ | so
      · rw [hso] at h
        simp at h
      · rw [hso] at h
        simp only [Option.some_bind, Option.some.injEq] at h
        subst h
        exact ⟨so, rfl, rfl, rfl⟩

/-! ## Claim C5 -/

/-- C5: on the tick that renders a just-replaced (non-sequence)
message, or the tick on which a sequence advances to its next item,
every config key recorded as a message-specific override but absent
from the new effective item's override set is reset to the panel's
baseline value (a `set_config` call with the baseline value is issued)
and removed from the override record; every key of the new effective
item's override set agrees with the new record, and is applied whenever
its value differs from the recorded one. -/
theorem C5_override_sync (env : TickEnv) (p : PanelState) :
    (∀ (m : DataMessage) (pw : JValue) (out : TickOutcome),
      p.message = some (.item m) →
      p.update.config_keys_changed = [] →
      p.update.message_changed = true →
      dictGet p.config "power_state" = some pw →
      pw ≠ .jstr "off" →
      (m.config.map Prod.fst).Nodup →
      controlTick env p = some out →
      (∀ key, dictGet out.panel.update.config_specific key =
        dictGet m.config key) ∧
      (∀ key v, dictGet p.update.config_specific key = some v →
        dictGet m.config key = none →
        ∃ bv, dictGet p.config key = some bv ∧ (key, bv) ∈ out.applied) ∧
      (∀ key v, dictGet m.config key = some v →
        dictGet p.update.config_specific key ≠ some v →
        (key, v) ∈ out.applied)) ∧
    (∀ (items : List DataMessage) (pos : Nat) (item item2 : DataMessage)
      (t d : Int) (pw : JValue) (out : TickOutcome),
      p.message = some (.sequence items) →
      p.update.config_keys_changed = [] →
      p.update.message_changed = false →
      dictGet p.config "power_state" = some pw →
      pw ≠ .jstr "off" →
      p.update.sequence_cur_pos = some pos →
      items.get? pos = some item →
      p.update.sequence_last_switched = some t →
      item.duration = some d →
      env.now - t ≥ d →
      items.get? (if pos = items.length - 1 then 0 else pos + 1) =
        some item2 →
      (item2.config.map Prod.fst).Nodup →
      controlTick env p = some out →
      (∀ key, dictGet out.panel.update.config_specific key =
        dictGet item2.config key) ∧
      (∀ key v, dictGet p.update.config_specific key = some v →
        dictGet item2.config key = none →
        ∃ bv, dictGet p.config key = some bv ∧ (key, bv) ∈ out.applied) ∧
      (∀ key v, dictGet item2.config key = some v →
        dictGet p.update.config_specific key ≠ some v →
        (key, v) ∈ out.applied)) := by
  constructor
  · intro m pw out hmsg hchanged hmc hpw hpwon hnodup hout
    have hpwoff : (pw == JValue.jstr "off") = false := by
      simpa using hpwon
    rcases m with ⟨mdata, mcfg, mdur⟩
    cases mdata with
    | bitmap bitmap blend align =>
      simp only [controlTick, hchanged, hmc, hmsg, hpw, List.mapM_nil,
        Option.bind_eq_bind, Option.some_bind, Option.pure_def,
        List.any_nil, Bool.or_false, Bool.true_or, if_true, hpwoff,
        Bool.false_eq_true, if_false] at hout
      rcases hr : tickRender env p.config p.bitmap none
          p.update.config_specific true
          ⟨.bitmap bitmap blend align, mcfg, mdur⟩ false
        with _ | r
      · rw [hr] at hout
        simp at hout
      · rw [hr] at hout
        simp only [Option.some_bind, Option.some.injEq] at hout
        subst hout
        obtain ⟨so, hso, h1, h2⟩ := tickRender_mc_sync env p.config p.bitmap
          none p.update.config_specific
          ⟨.bitmap bitmap blend align, mcfg, mdur⟩ false r hr
        have hspec := syncOverrides_spec p.config p.update.config_specific
          mcfg so hso hnodup
        refine ⟨?_, ?_, ?_⟩
        · intro key
          have := hspec.1 key
          simpa [h1] using this
        · intro key v hk hn
          obtain ⟨bv, hbv, hmem⟩ := hspec.2.1 key v hk hn
          refine ⟨bv, hbv, ?_⟩
          simpa [h2] using hmem
        · intro key v hk hn
          have := hspec.2.2 key v hk hn
          simpa [h2] using this
    | text text font size align pts blend =>
      simp only [controlTick, hchanged, hmc, hmsg, hpw, List.mapM_nil,
        Option.bind_eq_bind, Option.some_bind, Option.pure_def,
        List.any_nil, Bool.or_false, Bool.true_or, if_true, hpwoff,
        Bool.false_eq_true, if_false] at hout
      rcases hr : tickRender env p.config p.bitmap
          (if pts then some (env.strftime text) else none)
          p.update.config_specific true
          ⟨.text text font size align pts blend, mcfg, mdur⟩ false
        with _ | r
      · rw [hr] at hout
        simp at hout
      · rw [hr] at hout
        simp only [Option.some_bind, Option.some.injEq] at hout
        subst hout
        obtain ⟨so, hso, h1, h2⟩ := tickRender_mc_sync env p.config p.bitmap
          (if pts then some (env.strftime text) else none)
          p.update.config_specific
          ⟨.text text font size align pts blend, mcfg, mdur⟩ false r hr
        have hspec := syncOverrides_spec p.config p.update.config_specific
          mcfg so hso hnodup
        refine ⟨?_, ?_, ?_⟩
        · intro key
          have := hspec.1 key
          simpa [h1] using this
        · intro key v hk hn
          obtain ⟨bv, hbv, hmem⟩ := hspec.2.1 key v hk hn
          refine ⟨bv, hbv, ?_⟩
          simpa [h2] using hmem
        · intro key v hk hn
          have := hspec.2.2 key v hk hn
          simpa [h2] using this
  · intro items pos item item2 t d pw out hmsg hchanged hmc hpw hpwon hpos
      hitem hlast hdur helapsed hitem2 hnodup hout
    have hpwoff : (pw == JValue.jstr "off") = false := by
      simpa using hpwon
    simp only [controlTick, hchanged, hmc, hmsg, hpw, List.mapM_nil,
      Option.bind_eq_bind, Option.some_bind, Option.pure_def,
      List.any_nil, Bool.or_false, Bool.false_or,
      if_false, Bool.false_eq_true, hpwoff, hpos, hlast] at hout
    rw [hitem] at hout
    simp only [Option.bind_eq_bind, Option.some_bind, hdur] at hout
    rw [if_pos helapsed] at hout
    rw [hitem2] at hout
    simp only [Option.bind_eq_bind, Option.some_bind] at hout
    rcases hr : tickRender env p.config p.bitmap
        p.update.time_string_last_result p.update.config_specific false
        item2 true
      with _ | r
    · rw [hr] at hout
      simp at hout
    · rw [hr] at hout
      simp only [Option.bind_eq_bind, Option.some_bind, Option.pure_def,
        Option.some.injEq] at hout
      subst hout
      obtain ⟨so, hso, h1, h2⟩ := tickRender_ns_sync env p.config p.bitmap
        p.update.time_string_last_result p.update.config_specific false
        item2 r hr
      have hspec := syncOverrides_spec p.config p.update.config_specific
        item2.config so hso hnodup
      refine ⟨?_, ?_, ?_⟩
      · intro key
        have := hspec.1 key
        simpa [h1] using this
      · intro key v hk hn
        obtain ⟨bv, hbv, hmem⟩ := hspec.2.1 key v hk hn
        refine ⟨bv, hbv, ?_⟩
        simpa [h2] using hmem
      · intro key v hk hn
        have := hspec.2.2 key v hk hn
        simpa [h2] using this

/-- Baseline config of the C5 scenario. -/
def c5Baseline : List (String × JValue) :=
  [("power_state", .jstr "on"), ("scroll_speed", .jint 1)]

/-- Tick environment of the C5 scenario. -/
def c5Env : TickEnv := ⟨3, fun _ => "", fun _ _ _ _ => [[0]], 0⟩

/-- First data message: a bitmap with override `scroll_speed = 5`. -/
def c5Msg1 : DataMessage :=
  ⟨.bitmap [[0]] false none, [("scroll_speed", .jint 5)], none⟩

/-- Second data message: a bitmap with no config override. -/
def c5Msg2 : DataMessage := ⟨.bitmap [[0]] false none, [], none⟩

/-- Panel right after the first data message arrived. -/
def c5Panel1 : PanelState :=
  ⟨c5Baseline, some (.item c5Msg1), none, ⟨[], [], true, none, none, none⟩⟩

/-- Panel after the first tick, with the second data message applied. -/
def c5Panel2 : PanelState :=
  ⟨c5Baseline, some (.item c5Msg2), some [[0]],
   ⟨[], [("scroll_speed", .jint 5)], true, none, none, none⟩⟩

/-- Outcome of the second tick. -/
def c5Out2 : TickOutcome :=
  ⟨⟨c5Baseline, some (.item c5Msg2), some [[0]],
    ⟨[], [], false, none, none, none⟩⟩,
   [("scroll_speed", .jint 1)], [[[0]]]⟩

/-- Three-item sequence whose first item overrides `scroll_speed = 5`
and whose later items carry no override. -/
def c5SeqItems : List DataMessage :=
  [⟨.bitmap [[0]] false none, [("scroll_speed", .jint 5)], some 1⟩,
   ⟨.bitmap [[0]] false none, [], some 1⟩,
   ⟨.bitmap [[0]] false none, [], some 1⟩]

/-- Panel showing that sequence at cursor 0 with the override from
item 0 recorded and its duration elapsed. -/
def c5SeqPanel : PanelState :=
  ⟨c5Baseline, some (.sequence c5SeqItems), some [[0]],
   ⟨[], [("scroll_speed", .jint 5)], false, some 0, some 0, none⟩⟩

/-- Outcome of the sequence-advance tick. -/
def c5SeqOut : TickOutcome :=
  ⟨⟨c5Baseline, some (.sequence c5SeqItems), some [[0]],
    ⟨[], [], false, some 1, some 1, none⟩⟩,
   [("scroll_speed", .jint 1)], [[[0]]]⟩

/-- Tick environment for the sequence-advance tick. -/
def c5SeqEnv : TickEnv := ⟨1, fun _ => "", fun _ _ _ _ => [[0]], 0⟩

/-- C5 witness, both triggers.  Replaced message: the first tick
records the override `scroll_speed = 5`; the second tick (data message
with no override) issues `set_config('scroll_speed', 1)` — the baseline
value — and clears the override record.  Sequence advance: a sequence
whose item 0 overrides `scroll_speed = 5` advances to item 1 (no
override), which likewise restores the baseline and clears the
record. -/
theorem C5_override_sync_witness :
    ((controlTick c5Env c5Panel1).map
      (fun o => o.panel.update.config_specific) =
      some [("scroll_speed", .jint 5)]) ∧
    controlTick c5Env c5Panel2 = some c5Out2 ∧
    dictGet c5Out2.panel.update.config_specific "scroll_speed" = none ∧
    ("scroll_speed", JValue.jint 1) ∈ c5Out2.applied ∧
    dictGet c5Baseline "scroll_speed" = some (.jint 1) ∧
    controlTick c5SeqEnv c5SeqPanel = some c5SeqOut ∧
    dictGet c5SeqOut.panel.update.config_specific "scroll_speed" = none ∧
    ("scroll_speed", JValue.jint 1) ∈ c5SeqOut.applied := by
  have h := (C5_override_sync c5Env c5Panel2).1 c5Msg2 (.jstr "on") c5Out2
    rfl rfl rfl (by decide) (by decide) (by decide) (by decide)
  have hseq := (C5_override_sync c5SeqEnv c5SeqPanel).2 c5SeqItems 0
    ⟨.bitmap [[0]] false none, [("scroll_speed", .jint 5)], some 1⟩
    ⟨.bitmap [[0]] false none, [], some 1⟩ 0 1 (.jstr "on") c5SeqOut
    rfl rfl rfl (by decide) (by decide) rfl (by decide) rfl (by decide)
    (by decide) (by decide) (by decide) (by decide)
  refine ⟨by decide, by decide, ?_, ?_, by decide, by decide, ?_, ?_⟩
  · exact h.1 "scroll_speed"
  · obtain ⟨bv, hbv, hmem⟩ := h.2.1 "scroll_speed" (.jint 5)
      (by decide) (by decide)
    have hbv2 : bv = JValue.jint 1 :=
      Option.some.inj (hbv.symm.trans (by decide))
    subst hbv2
    exact hmem
  · exact hseq.1 "scroll_speed"
  · obtain ⟨bv, hbv, hmem⟩ := hseq.2.1 "scroll_speed" (.jint 5)
      (by decide) (by decide)
    have hbv2 : bv = JValue.jint 1 :=
      Option.some.inj (hbv.symm.trans (by decide))
    subst hbv2
    exact hmem

end Annax






